import Mathlib

/-!
Verification of `sync_wait.hpp` (hpx, blocking sender adapter).

Shallow embedding of the header
`libs/core/execution/include/hpx/execution/algorithms/sync_wait.hpp`:
the type-level deduction (`make_decayed_pack`, `single_result_type`,
`error_type`), the shared completion state with its callbacks and
`get_value`, the double-checked wait / signal protocol as an explicit
interleaving state machine, and the dispatch layer.
-/

namespace HPXSyncWait

/-! ## C++ type expressions and `std::decay_t` -/

/-- A C++ type expression, as needed by the type deduction in the header:
base types (identified by a number), the distinguished
`std::exception_ptr`, `const` qualification and lvalue/rvalue
references. -/
inductive CppTy where
  | base (n : Nat)
  | exceptionPtr
  | constQ (t : CppTy)
  | lref (t : CppTy)
  | rref (t : CppTy)
deriving DecidableEq, Repr

/-- `std::remove_reference_t`: strip one top-level reference. -/
def remove_reference : CppTy → CppTy
  | .lref t => t
  | .rref t => t
  | t => t

/-- `std::remove_cv_t`: strip top-level `const` qualification. -/
def remove_cv : CppTy → CppTy
  | .constQ t => t
  | t => t

/-- `std::decay_t` on non-array, non-function types:
`remove_cv_t<remove_reference_t<T>>`. -/
def decay (t : CppTy) : CppTy :=
  remove_cv (remove_reference t)

/-- `make_decayed_pack` (sync_wait.hpp lines 49–59): apply `std::decay_t`
to every member of a pack. A pack is modelled as a list of type
expressions. -/
def make_decayed_pack (ts : List CppTy) : List CppTy :=
  ts.map decay

/-- Modelled from the spec: `single_variant_t` lives in
`detail/single_result.hpp`, which is not under `src/`. The spec requires
that exactly one value-signature shape exist and that more than one be a
static contract violation detected before any execution; we model the
static rejection as returning `none`. The input list holds the sender's
distinct declared value-signature shapes. -/
def single_variant : List α → Option α
  | [t] => some t
  | _ => none

/-- `sync_wait_receiver::single_result_type` (lines 81–82):
`make_decayed_pack_t<single_variant_t<predecessor_value_types<tuple, pack>>>`.
`none` models the static contract violation (no type is formed). -/
def single_result_type (sigs : List (List CppTy)) : Option (List CppTy) :=
  (single_variant sigs).map make_decayed_pack

/-! ## Error variant type deduction -/

/-- Modelled from the spec: `hpx::util::detail::unique_t` (from
`type_support/pack.hpp`, not under `src/`) deduplicates a pack of types,
keeping the first occurrence of each. Accumulator `seen` holds the types
already produced. -/
def uniqueAux [DecidableEq α] : List α → List α → List α
  | [], _ => []
  | t :: ts, seen =>
    if t ∈ seen then uniqueAux ts seen else t :: uniqueAux ts (t :: seen)

/-- Modelled from the spec: deduplication keeping first occurrences. -/
def unique [DecidableEq α] (l : List α) : List α :=
  uniqueAux l []

/-- Modelled from the spec: `hpx::util::detail::prepend_t` (from
`type_support/pack.hpp`, not under `src/`) prepends a type to a pack. -/
def prepend (t : α) (l : List α) : List α :=
  t :: l

/-- `sync_wait_receiver::error_type` (lines 91–93):
`unique_t<prepend_t<predecessor_error_types<variant>, exception_ptr>>`.
The argument is the sender's declared error types, in declaration
order. -/
def error_type_list (errs : List CppTy) : List CppTy :=
  unique (prepend CppTy.exceptionPtr errs)

/-- Modelled from the spec: the converting construction performed by
`value.emplace<error_type>(error)` (line 156) selects the alternative of
the inner error variant matching the incoming error's type; an error
whose type is not one of the sender's declared types is stored in the
opaque-capture (`exception_ptr`) alternative. The variant implementation
itself is not under `src/`. -/
def stored_error_alternative (errs : List CppTy) (ety : CppTy) : CppTy :=
  if ety ∈ error_type_list errs then ety else CppTy.exceptionPtr

/-! ## Runtime model: completion values, shared state, callbacks -/

/-- A value of the inner error variant
`variant<exception_ptr, declared errors...>`: either an opaque captured
exception (`exception_ptr`) or a typed error value. -/
inductive ErrVal (Eptr Err : Type) where
  | eptrAlt (p : Eptr)
  | typed (e : Err)
deriving DecidableEq, Repr

/-- The outcome a sender resolves to: exactly one of the three
completion channels. `V` is the (single) value tuple type, `E` the error
type stored in the shared state. -/
inductive Completion (V E : Type) where
  | value (v : V)
  | error (e : E)
  | stopped
deriving DecidableEq, Repr

/-- The `hpx::variant<hpx::monostate, error_type, result_type>` cell of
the shared state (line 105). `result_type = variant<single_result_type>`
has a single alternative, so it is carried directly as `V`. -/
inductive Cell (V E : Type) where
  | monostate
  | error (e : E)
  | result (v : V)
deriving DecidableEq, Repr

/-- `sync_wait_receiver::shared_state` (lines 98–138), restricted to its
logical content: the one-shot flag `set_called` and the outcome cell
`value`. The mutex and condition variable are modelled separately by the
interleaving machine below. -/
structure shared_state (V E : Type) where
  set_called : Bool
  value : Cell V E
deriving DecidableEq, Repr

/-- A freshly constructed shared state (line 220: `state_type state{};`):
flag clear, cell holding `monostate`. -/
def initial_state (V E : Type) : shared_state V E :=
  ⟨false, .monostate⟩

/-- `sync_wait_error_visitor` (lines 35–47): the `exception_ptr`
alternative is rethrown unchanged (`std::rethrow_exception(ep)`); a
typed error value is thrown directly (`throw error`). The result is the
exception observed by the caller. -/
def sync_wait_error_visitor : ErrVal Eptr Err → ErrVal Eptr Err
  | .eptrAlt p => .eptrAlt p
  | .typed e => .typed e

/-- `signal_set_called` (lines 142–150), logical effect: set the
one-shot flag. (The lock/notify ordering is modelled by the
interleaving machine below.) -/
def signal_set_called (st : shared_state V E) : shared_state V E :=
  { st with set_called := true }

/-- `tag_invoke(set_value_t, ...)` (lines 167–174): store the value
tuple in the `result_type` alternative, then signal. -/
def set_value_cb (v : V) (st : shared_state V E) : shared_state V E :=
  signal_set_called { st with value := .result v }

/-- `tag_invoke(set_error_t, ...)` (lines 152–159): store the error in
the `error_type` alternative, then signal. -/
def set_error_cb (e : E) (st : shared_state V E) : shared_state V E :=
  signal_set_called { st with value := .error e }

/-- `tag_invoke(set_stopped_t, ...)` (lines 161–164): only signal; the
cell keeps holding `monostate`. -/
def set_stopped_cb (st : shared_state V E) : shared_state V E :=
  signal_set_called st

/-- Dispatch of one completion signal to the matching receiver
callback. A sender resolves on exactly one channel, exactly once. -/
def run_completion (c : Completion V E) (st : shared_state V E) :
    shared_state V E :=
  match c with
  | .value v => set_value_cb v st
  | .error e => set_error_cb e st
  | .stopped => set_stopped_cb st

/-- `shared_state::get_value` (lines 119–137). Raising an exception is
modelled by `Except.error`; the checks follow the source order:
`result_type` alternative first, then `error_type` (whose visitor always
throws), and the `monostate` fall-through returns an empty optional. -/
def get_value (st : shared_state V (ErrVal Eptr Err)) :
    Except (ErrVal Eptr Err) (Option V) :=
  match st.value with
  | .result v => .ok (some v)
  | .error e => .error (sync_wait_error_visitor e)
  | .monostate => .ok none

/-- `tag_fallback_invoke(sync_wait_t, Sender&&)` (lines 212–227): fresh
shared state, connect and start (the producer eventually delivers one
completion `c`), wait until signalled, then resolve with `get_value`. -/
def sync_wait_fallback (c : Completion V (ErrVal Eptr Err)) :
    Except (ErrVal Eptr Err) (Option V) :=
  get_value (run_completion c (initial_state V (ErrVal Eptr Err)))

/-! ## Interleaving machine for the wait / signal protocol

`shared_state::wait` (lines 107–117) and `signal_set_called`
(lines 142–150) race on the one-shot flag, the mutex and the condition
variable.  We model the consumer thread (executing `wait`) and the
producer thread (executing a completion callback followed by
`signal_set_called`) as a finite transition system, one atomic action
per step, interleaved arbitrarily. -/

/-- Program counter of the consumer executing `shared_state::wait`:
the lock-free fast check of `set_called` (line 109), acquiring the mutex
(line 111), the re-check under the lock (line 112), sleeping on the
condition variable (line 114, which atomically released the mutex),
re-acquiring the mutex on wakeup (inside `cond_var.wait`), releasing it
when the `unique_lock` leaves scope, and done (released from `wait`). -/
inductive ConsumerPC where
  | fastCheck
  | lockAcq
  | recheck
  | sleeping
  | reacquire
  | unlocking
  | released
deriving DecidableEq, Repr

/-- Program counter of the producer executing `signal_set_called`:
acquiring the mutex (line 144), the store `set_called = true`
(line 145), `notify_one` (line 149), releasing the mutex when the
`unique_lock` leaves scope, and done. -/
inductive ProducerPC where
  | lockAcq
  | setFlag
  | notify
  | unlock
  | finished
deriving DecidableEq, Repr

/-- Holder of the spinlock `mtx`. -/
inductive LockOwner where
  | free
  | consumer
  | producer
deriving DecidableEq, Repr

/-- A global state of the two racing threads: both program counters,
the atomic one-shot flag `set_called`, the mutex, and whether the
consumer is enqueued on the condition variable. -/
structure WaitMachine where
  cpc : ConsumerPC
  ppc : ProducerPC
  flag : Bool
  lock : LockOwner
  queued : Bool
deriving DecidableEq, Repr

/-- Both threads at their first instruction, flag clear, lock free,
nobody waiting on the condition variable. -/
def initWait : WaitMachine :=
  ⟨.fastCheck, .lockAcq, false, .free, false⟩

/-- Consumer steps of `shared_state::wait`. The fast check reads the
atomic flag without the lock; `cond_var.wait(l)` atomically releases the
mutex and enqueues; wakeup happens only through the producer's
`notify_one` (no spurious wakeups in the model); after wakeup the
consumer re-acquires the mutex and then releases it on scope exit. -/
def consumerSteps (s : WaitMachine) : List WaitMachine :=
  match s.cpc with
  | .fastCheck =>
    if s.flag then [{ s with cpc := .released }]
    else [{ s with cpc := .lockAcq }]
  | .lockAcq =>
    if s.lock = .free then [{ s with cpc := .recheck, lock := .consumer }]
    else []
  | .recheck =>
    if s.flag then [{ s with cpc := .released, lock := .free }]
    else [{ s with cpc := .sleeping, lock := .free, queued := true }]
  | .sleeping => []
  | .reacquire =>
    if s.lock = .free then [{ s with cpc := .unlocking, lock := .consumer }]
    else []
  | .unlocking => [{ s with cpc := .released, lock := .free }]
  | .released => []

/-- Producer steps of `signal_set_called`: lock, set the flag, notify
one waiter (a no-op when nobody is enqueued), unlock. A woken consumer
moves from `sleeping` to `reacquire` but cannot run further until it
gets the mutex back. -/
def producerSteps (s : WaitMachine) : List WaitMachine :=
  match s.ppc with
  | .lockAcq =>
    if s.lock = .free then [{ s with ppc := .setFlag, lock := .producer }]
    else []
  | .setFlag => [{ s with ppc := .notify, flag := true }]
  | .notify =>
    if s.queued then
      [{ s with ppc := .unlock, queued := false, cpc := .reacquire }]
    else [{ s with ppc := .unlock }]
  | .unlock => [{ s with ppc := .finished, lock := .free }]
  | .finished => []

/-- All interleavings: at each step either thread may move. -/
def waitStep (s : WaitMachine) : List WaitMachine :=
  consumerSteps s ++ producerSteps s

/-- One round of closing a state list under `waitStep`. -/
def stepClose (l : List WaitMachine) : List WaitMachine :=
  (l ++ l.flatMap waitStep).dedup

/-- All states reachable from `initWait` (the iteration count exceeds
the diameter of the reachable graph; closure is proved below). -/
def reachWait : List WaitMachine :=
  stepClose^[16] [initWait]

/-- Reachability of a global state from the initial state under
arbitrary interleaving. -/
inductive WReachable : WaitMachine → Prop where
  | init : WReachable initWait
  | step {s t : WaitMachine} : WReachable s → t ∈ waitStep s → WReachable t

/-! ## Dispatch layer -/

/-- Modelled from the spec: the static facts about a sender that the
two-tier dispatch of `sync_wait_t` (lines 180–234) consults. `V` and the
error parameters describe its completion; the two Booleans model whether
the sender exposes a completion scheduler for its value channel and
whether that scheduler registers a `sync_wait` specialization
(`is_completion_scheduler_tag_invocable`, lines 188–192). -/
structure ModelSender (V Eptr Err : Type) where
  completion : Completion V (ErrVal Eptr Err)
  hasValueCompletionScheduler : Bool
  schedulerProvidesSyncWait : Bool

/-- `is_completion_scheduler_tag_invocable_v<set_value_t, Sender,
sync_wait_t>` (lines 188–192): the sender exposes a completion scheduler
for the value channel and `tag_invoke(sync_wait, scheduler, sender)` is
well-formed. The trait itself is not under `src/`; modelled from the
spec. -/
def is_completion_scheduler_tag_invocable (s : ModelSender V Eptr Err) :
    Bool :=
  s.hasValueCompletionScheduler && s.schedulerProvidesSyncWait

/-- The overload chosen by the compile-time dispatch. -/
inductive DispatchPath where
  | schedulerSpecific
  | genericFallback
deriving DecidableEq, Repr

/-- Modelled from the spec: `tag_priority<sync_wait_t>`
(`tag_priority_invoke.hpp`, not under `src/`) prefers
`tag_override_invoke` (lines 195–204, available exactly when
`is_completion_scheduler_tag_invocable` holds) and otherwise falls back
to `tag_fallback_invoke` (lines 212–227). The selection depends only on
the sender's static description. -/
def sync_wait_dispatch_path (s : ModelSender V Eptr Err) : DispatchPath :=
  if is_completion_scheduler_tag_invocable s then .schedulerSpecific
  else .genericFallback

/-- Modelled from the spec: the deferred (argument-less) form
`tag_fallback_invoke(sync_wait_t)` (lines 229–233) returns a
`partial_algorithm<sync_wait_t>` stage (`partial_algorithm.hpp`, not
under `src/`): a stage capturing the tag and no arguments, which, when
later combined with a sender, invokes the captured algorithm on that
sender. -/
structure DeferredSyncWait where
  unit : Unit
deriving DecidableEq, Repr

/-- The deferred stage returned by `sync_wait()` with no sender. -/
def sync_wait_deferred : DeferredSyncWait :=
  ⟨()⟩

/-- Modelled from the spec: combining the deferred stage with a sender
(`operator|`) performs the full blocking sequence on that sender. The
observable outcome of the generic engine is `sync_wait_fallback` on the
sender's completion. -/
def combine_deferred (_p : DeferredSyncWait)
    (c : Completion V (ErrVal Eptr Err)) :
    Except (ErrVal Eptr Err) (Option V) :=
  sync_wait_fallback c

/-! ## Helper lemmas -/

theorem mem_uniqueAux [DecidableEq α] (l : List α) :
    ∀ (seen : List α) (a : α),
      a ∈ uniqueAux l seen ↔ a ∈ l ∧ a ∉ seen := by
  induction l with
  | nil => intro seen a; simp [uniqueAux]
  | cons t ts ih =>
    intro seen a
    by_cases ht : t ∈ seen
    · simp only [uniqueAux, if_pos ht, ih, List.mem_cons]
      aesop
    · simp only [uniqueAux, if_neg ht, List.mem_cons, ih]
      by_cases hat : a = t
      · subst hat
        aesop
      · aesop

theorem nodup_uniqueAux [DecidableEq α] (l : List α) :
    ∀ seen : List α, (uniqueAux l seen).Nodup := by
  induction l with
  | nil => intro seen; simp [uniqueAux]
  | cons t ts ih =>
    intro seen
    by_cases ht : t ∈ seen
    · simpa [uniqueAux, if_pos ht] using ih seen
    · simp only [uniqueAux, if_neg ht, List.nodup_cons]
      refine ⟨fun hmem => ?_, ih (t :: seen)⟩
      exact ((mem_uniqueAux ts (t :: seen) t).mp hmem).2
        (List.mem_cons_self t seen)

theorem mem_error_type_list (errs : List CppTy) (t : CppTy) :
    t ∈ error_type_list errs ↔ t = CppTy.exceptionPtr ∨ t ∈ errs := by
  simp only [error_type_list, unique, prepend, mem_uniqueAux, List.mem_cons,
    List.not_mem_nil, not_false_iff, and_true]

theorem reachWait_closed :
    ∀ s ∈ reachWait, ∀ t ∈ waitStep s, t ∈ reachWait := by decide

theorem reachWait_safety :
    ∀ s ∈ reachWait, s.cpc = .released → s.flag = true := by decide

theorem reachWait_terminal :
    ∀ s ∈ reachWait,
      waitStep s = [] → s.cpc = .released ∧ s.ppc = .finished := by decide

theorem initWait_mem_reachWait : initWait ∈ reachWait := by decide

theorem wreachable_mem_reachWait {s : WaitMachine} (h : WReachable s) :
    s ∈ reachWait := by
  induction h with
  | init => exact initWait_mem_reachWait
  | step hs hstep ih => exact reachWait_closed _ ih _ hstep

/-! ## Claim theorems -/

/-- C1: a sender completing on the value channel with values `v` makes the
blocking call return a present optional holding the value tuple — exactly
one result per call, since the call is a function of the completion — and
the single declared value-signature shape yields the decayed tuple type
(reference and const qualifiers stripped by `std::decay_t`), so the result
is an owned copy/move. -/
theorem sync_wait_value_returns_present_decayed
    (V Eptr Err : Type) (v : V) (ts : List CppTy) :
    sync_wait_fallback
        (Completion.value v : Completion V (ErrVal Eptr Err)) =
      Except.ok (some v) ∧
    single_result_type [ts] = some (make_decayed_pack ts) ∧
    make_decayed_pack ts = ts.map decay :=
  ⟨rfl, rfl, rfl⟩

/-- C2: a sender completing on the error channel makes the blocking call
raise synchronously at resolution: the outcome is `Except.error` of what
`sync_wait_error_visitor` raises, the visitor rethrows an opaque capture
unchanged and raises a typed error value directly (it is the identity on
the stored error), and the call never produces a present or absent
value. -/
theorem sync_wait_error_raises
    (V Eptr Err : Type) (e : ErrVal Eptr Err) :
    sync_wait_fallback
        (Completion.error e : Completion V (ErrVal Eptr Err)) =
      Except.error (sync_wait_error_visitor e) ∧
    sync_wait_error_visitor e = e ∧
    ∀ r : Option V,
      sync_wait_fallback
          (Completion.error e : Completion V (ErrVal Eptr Err)) ≠
        Except.ok r := by
  refine ⟨rfl, ?_, ?_⟩
  · cases e <;> rfl
  · intro r h
    exact Except.noConfusion h

/-- C3: a sender completing on the stopped channel makes the blocking call
return an absent optional and never raise; the shared state's value cell is
still `monostate` at resolution (only the one-shot flag was set), and
absence is the non-error stopped outcome, not an error. -/
theorem sync_wait_stopped_returns_absent (V Eptr Err : Type) :
    sync_wait_fallback
        (Completion.stopped : Completion V (ErrVal Eptr Err)) =
      Except.ok none ∧
    (run_completion Completion.stopped
        (initial_state V (ErrVal Eptr Err))).value = Cell.monostate ∧
    (run_completion Completion.stopped
        (initial_state V (ErrVal Eptr Err))).set_called = true ∧
    ∀ e : ErrVal Eptr Err,
      sync_wait_fallback
          (Completion.stopped : Completion V (ErrVal Eptr Err)) ≠
        Except.error e := by
  refine ⟨rfl, rfl, rfl, ?_⟩
  intro e h
  exact Except.noConfusion h

/-- C4: in every interleaving of the producer running
`signal_set_called` and the consumer running `shared_state::wait`, the
waiter is released only after the one-shot flag was set by a completion
callback (safety: `released` implies `flag`), and every completed
execution releases the waiter — no interleaving gets stuck with the
consumer still blocked (no lost wakeup, no deadlock). -/
theorem wait_no_lost_wakeup (s : WaitMachine) (h : WReachable s) :
    (s.cpc = ConsumerPC.released → s.flag = true) ∧
    (waitStep s = [] →
      s.cpc = ConsumerPC.released ∧ s.ppc = ProducerPC.finished) := by
  have hmem := wreachable_mem_reachWait h
  exact ⟨reachWait_safety s hmem, reachWait_terminal s hmem⟩

/-- Witness for C4: the theorem applied at the initial state of the
protocol, whose reachability is immediate. -/
theorem wait_no_lost_wakeup_witness :
    (initWait.cpc = ConsumerPC.released → initWait.flag = true) ∧
    (waitStep initWait = [] →
      initWait.cpc = ConsumerPC.released ∧
        initWait.ppc = ProducerPC.finished) :=
  wait_no_lost_wakeup initWait WReachable.init

/-- C5: a sender declaring more than one distinct value-signature shape is
rejected statically — no single result type is formed, so the blocking
call cannot be built, before any execution — and the single result type
exists exactly when there is exactly one shape. -/
theorem single_result_requires_one_shape (sigs : List (List CppTy)) :
    (2 ≤ sigs.length → single_result_type sigs = none) ∧
    ((single_result_type sigs).isSome ↔ sigs.length = 1) := by
  constructor
  · intro h
    match sigs, h with
    | a :: b :: rest, _ => rfl
  · match sigs with
    | [] => simp [single_result_type, single_variant]
    | [t] => simp [single_result_type, single_variant]
    | a :: b :: rest => simp [single_result_type, single_variant]

/-- C6: the computed error variant is the deduplicated list of the
sender's declared error types with the opaque-capture alternative
(`exception_ptr`) always present as the first alternative; its members are
exactly `exception_ptr` together with the declared error types. -/
theorem error_type_opaque_first_dedup (errs : List CppTy) :
    (error_type_list errs).head? = some CppTy.exceptionPtr ∧
    (error_type_list errs).Nodup ∧
    ∀ t, t ∈ error_type_list errs ↔
      t = CppTy.exceptionPtr ∨ t ∈ errs := by
  refine ⟨?_, nodup_uniqueAux _ _, mem_error_type_list errs⟩
  simp [error_type_list, unique, prepend, uniqueAux]

/-- C7: the error completion callback stores the Error state (cell holds
the error, one-shot flag set), and the stored alternative of the error
variant matches the incoming error's type when that type is declared by
the sender, and is the opaque capture (`exception_ptr`) when it is not
declared. -/
theorem set_error_places_matching_alternative
    (V Eptr Err : Type) (e : ErrVal Eptr Err)
    (errs : List CppTy) (ety : CppTy) :
    (set_error_cb e (initial_state V (ErrVal Eptr Err))).value =
        Cell.error e ∧
    (set_error_cb e (initial_state V (ErrVal Eptr Err))).set_called =
        true ∧
    (ety ∈ errs → stored_error_alternative errs ety = ety) ∧
    (ety ∉ errs →
      stored_error_alternative errs ety = CppTy.exceptionPtr) := by
  refine ⟨rfl, rfl, ?_, ?_⟩
  · intro h
    unfold stored_error_alternative
    rw [if_pos ((mem_error_type_list errs ety).mpr (Or.inr h))]
  · intro h
    unfold stored_error_alternative
    by_cases he : ety = CppTy.exceptionPtr
    · subst he
      rw [if_pos ((mem_error_type_list errs _).mpr (Or.inl rfl))]
    · have hnot : ety ∉ error_type_list errs := by
        intro hmem
        rcases (mem_error_type_list errs ety).mp hmem with h1 | h1
        · exact he h1
        · exact h h1
      rw [if_neg hnot]

/-- C8: combining the deferred (argument-less) stage with a sender
produces the same observable outcome as the blocking call applied to the
sender directly. -/
theorem deferred_form_equivalent (V Eptr Err : Type)
    (c : Completion V (ErrVal Eptr Err)) :
    combine_deferred sync_wait_deferred c = sync_wait_fallback c :=
  rfl

/-- C9: the compile-time dispatch takes the scheduler-specific override
path exactly for senders exposing a value-channel completion scheduler
that supplies a `sync_wait` specialization, and the generic fallback path
for all other senders — the two outcomes being mutually exclusive, the
override path never falls through to the generic one. -/
theorem dispatch_prefers_scheduler_override (V Eptr Err : Type)
    (s : ModelSender V Eptr Err) :
    (is_completion_scheduler_tag_invocable s = true →
      sync_wait_dispatch_path s = DispatchPath.schedulerSpecific) ∧
    (is_completion_scheduler_tag_invocable s = false →
      sync_wait_dispatch_path s = DispatchPath.genericFallback) := by
  constructor
  · intro h
    simp [sync_wait_dispatch_path, h]
  · intro h
    simp [sync_wait_dispatch_path, h]

/-- C10: a sender completing on the value channel with zero values makes
the blocking call return a present optional holding the empty tuple,
observably distinct from the absent optional a stopped completion
produces. -/
theorem sync_wait_empty_value_distinct_from_stopped :
    sync_wait_fallback
        (Completion.value () : Completion Unit (ErrVal Unit Unit)) =
      Except.ok (some ()) ∧
    sync_wait_fallback
        (Completion.stopped : Completion Unit (ErrVal Unit Unit)) =
      Except.ok none ∧
    sync_wait_fallback
        (Completion.value () : Completion Unit (ErrVal Unit Unit)) ≠
      sync_wait_fallback
        (Completion.stopped : Completion Unit (ErrVal Unit Unit)) := by
  refine ⟨rfl, rfl, ?_⟩
  intro h
  simp [sync_wait_fallback, get_value, run_completion, set_value_cb,
    set_stopped_cb, signal_set_called, initial_state] at h

end HPXSyncWait
